import Mathlib

/-!
Shallow embedding of the core of the `polymarket-lp-bot` trading engine:
the risk gate (`bot/risk/manager.py`), the inventory ledger
(`bot/risk/inventory.py`), the order execution pipeline
(`bot/execution/order_manager.py`, `bot/execution/dry_run.py`), the
anti-detection jitter (`bot/risk/anti_detection.py`), the arbitrage scanner
(`bot/strategies/arbitrage.py`), the LP exit-sell loop
(`bot/strategies/liquidity.py`) and the flip state machine
(`bot/strategies/liquidity_flip.py`).

Modelling conventions:
* Python floats are modelled as exact rationals (`ℚ`).
* Python `or` on a float/string applies its truthiness rule (`0.0`, `""` and
  `None` are falsy); it is written out as an explicit test.
* Awaited I/O (database reads, exchange calls, the random jitter draw) is
  passed in as an explicit argument; a call that can raise is modelled as
  `Except String α` with the exception message in the `error` case.
* Logging and event-bus publishes whose failures the source swallows have no
  state effect and are dropped from the model (a comment marks each spot).
-/

/-- Side of an order, from `bot/constants.py` (`class Side`). -/
inductive Side
  | BUY
  | SELL
  deriving Repr, DecidableEq

/-- Order time-in-force, from `bot/constants.py` (`class OrderType`). -/
inductive OrderType
  | GTC
  | FOK
  deriving Repr, DecidableEq

/-- Strategy tag, from `bot/constants.py` (`class Strategy`).  The source enum
has exactly these four members (`liquidity_flip.py` references a fifth,
`Strategy.LP_FLIP`, that does not exist; that access sits inside a swallowed
`try`/`except`). -/
inductive StrategyTag
  | ARBITRAGE
  | LIQUIDITY
  | COPY_TRADING
  | SYNTH_EDGE
  deriving Repr, DecidableEq

/-- Modelled from the spec: `Signal` lives in `bot/types.py`, which is not
under `src/`; fields follow §3 of the spec ("a proposed order" with strategy
tag, token id, condition id, side, limit price, size, order type, optional
edge, reason and market question) and every constructing call site.  The
free-text `reason` field is elided (no claim touches it). -/
structure Signal where
  strategy : StrategyTag
  token_id : String
  condition_id : String
  side : Side
  price : ℚ
  size : ℚ
  order_type : OrderType
  edge : Option ℚ := none
  market_question : Option String := none
  deriving Repr, DecidableEq

/-- Modelled from the spec: `RiskVerdict` lives in `bot/types.py`, which is
not under `src/`; the spec §4.7 fixes it as
`Verdict{allowed: bool, adjusted_signal?, reason?}`. -/
structure RiskVerdict where
  allowed : Bool
  adjusted_signal : Option Signal := none
  reason : Option String := none
  deriving Repr, DecidableEq

/-- Modelled from the spec: `OrderResult` lives in `bot/types.py`, which is
not under `src/`; fields follow §3 of the spec ("signal; success flag; order
identifier; fill price; fill size; fees; optional error; dry-run flag") and
every constructing call site. -/
structure OrderResult where
  signal : Signal
  success : Bool
  order_id : Option String := none
  fill_price : ℚ := 0
  fill_size : ℚ := 0
  fee_paid : ℚ := 0
  error : Option String := none
  is_dry_run : Bool := false
  deriving Repr, DecidableEq

/-- Modelled from the spec: `Position` lives in `bot/types.py`, which is not
under `src/`; fields follow §3 of the spec and the constructor call in
`InventoryManager.update_on_fill`. -/
structure Position where
  condition_id : String
  token_id : String
  outcome : String
  size : ℚ
  avg_entry_price : ℚ
  strategy : StrategyTag
  current_price : ℚ
  deriving Repr, DecidableEq

/-- Configuration fields consumed by the embedded code, from
`bot/config.py` (`class BotConfig`).  `lp_flip_stop_loss_pct` is modelled
from the spec: `liquidity_flip.py` reads it but the `BotConfig` under `src/`
does not declare it; the spec §6 lists it among the recognized options. -/
structure BotConfig where
  dry_run : Bool
  starting_balance_usd : ℚ
  max_drawdown_usd : ℚ
  max_trade_size_usd : ℚ
  daily_volume_cap_usd : ℚ
  max_open_positions : ℕ
  max_per_market_usd : ℚ
  max_portfolio_exposure_usd : ℚ
  arb_min_profit_cents : ℚ
  size_jitter_pct : ℚ
  lp_flip_stop_loss_pct : ℚ
  deriving Repr, DecidableEq

/-- `BotConfig.drawdown_threshold` property from `bot/config.py`. -/
def BotConfig.drawdown_threshold (cfg : BotConfig) : ℚ :=
  cfg.starting_balance_usd - cfg.max_drawdown_usd

/-- In-memory state of `InventoryManager` (`bot/risk/inventory.py`): cash
balance plus the `positions` dict, modelled as an association list keyed by
token id (keys are unique because every insert goes through `posSet`). -/
structure Inventory where
  balance : ℚ
  positions : List (String × Position)
  deriving Repr, DecidableEq

/-- Dict lookup for the `positions` map (`self.positions.get(token_id)`). -/
def posLookup (positions : List (String × Position)) (token_id : String) :
    Option Position :=
  match positions with
  | [] => none
  | (k, p) :: rest => if k = token_id then some p else posLookup rest token_id

/-- Dict write for the `positions` map (`self.positions[token_id] = p`):
replaces the first binding of the key, else appends. -/
def posSet (positions : List (String × Position)) (token_id : String)
    (p : Position) : List (String × Position) :=
  match positions with
  | [] => [(token_id, p)]
  | (k, q) :: rest =>
      if k = token_id then (k, p) :: rest else (k, q) :: posSet rest token_id p

/-- Dict delete for the `positions` map (`del self.positions[token_id]`). -/
def posRemove (positions : List (String × Position)) (token_id : String) :
    List (String × Position) :=
  match positions with
  | [] => []
  | (k, q) :: rest =>
      if k = token_id then rest else (k, q) :: posRemove rest token_id

/-- `InventoryManager.get_total_exposure`: Σ size · avg_entry_price. -/
def Inventory.get_total_exposure (inv : Inventory) : ℚ :=
  (inv.positions.map (fun kv => kv.2.size * kv.2.avg_entry_price)).sum

/-- `InventoryManager.get_market_exposure`: the filtered sum for one
condition id. -/
def Inventory.get_market_exposure (inv : Inventory) (condition_id : String) :
    ℚ :=
  ((inv.positions.filter (fun kv => kv.2.condition_id = condition_id)).map
    (fun kv => kv.2.size * kv.2.avg_entry_price)).sum

/-- `InventoryManager.get_open_position_count`: map cardinality. -/
def Inventory.get_open_position_count (inv : Inventory) : ℕ :=
  inv.positions.length

/-- Modelled from the spec: `RiskManager._check_drawdown` reads
`self.inventory.portfolio_value`, but `InventoryManager` under `src/` does
not define that property; the spec §4.7 fixes it as
"portfolio = inventory.balance + get_total_exposure()". -/
def Inventory.portfolio_value (inv : Inventory) : ℚ :=
  inv.balance + inv.get_total_exposure

/-- `InventoryManager.update_on_fill` (`bot/risk/inventory.py` lines 61-101).
`fill_price or signal.price` / `fill_size or signal.size` use Python float
truthiness: a stored `0` falls back to the signal's value. -/
def Inventory.update_on_fill (inv : Inventory) (result : OrderResult) :
    Inventory :=
  if result.success = false then inv
  else
    let fill_price :=
      if result.fill_price = 0 then result.signal.price else result.fill_price
    let fill_size :=
      if result.fill_size = 0 then result.signal.size else result.fill_size
    let cost := fill_price * fill_size + result.fee_paid
    let sig := result.signal
    let token_id := sig.token_id
    if sig.side = Side.BUY then
      let balance := inv.balance - cost
      match posLookup inv.positions token_id with
      | some existing =>
          let total_size := existing.size + fill_size
          let avg_price :=
            (existing.avg_entry_price * existing.size + fill_price * fill_size)
              / total_size
          { balance := balance,
            positions := posSet inv.positions token_id
              { existing with size := total_size, avg_entry_price := avg_price } }
      | none =>
          { balance := balance,
            positions := posSet inv.positions token_id
              { condition_id := sig.condition_id,
                token_id := token_id,
                outcome := "",
                size := fill_size,
                avg_entry_price := fill_price,
                strategy := sig.strategy,
                current_price := fill_price } }
    else
      -- SELL — add proceeds, reduce position
      let balance := inv.balance + (fill_price * fill_size - result.fee_paid)
      match posLookup inv.positions token_id with
      | some existing =>
          let new_size := existing.size - fill_size
          if new_size ≤ 0 then
            { balance := balance, positions := posRemove inv.positions token_id }
          else
            { balance := balance,
              positions := posSet inv.positions token_id
                { existing with size := new_size } }
      | none => { balance := balance, positions := inv.positions }

/-- Outcome of `get_today_volume(self.db)` (`bot/data/models.py`): the
`total_volume` column of today's row when the row exists, or a raised
database exception.  `RiskManager._check_daily_volume` does not guard this
read. -/
abbrev VolumeFetch := Except String (Option ℚ)

/-- The rejection `RiskManager.check_signal` returns once the drawdown gate
fires (`bot/risk/manager.py` line 60). -/
def haltVerdict : RiskVerdict :=
  { allowed := false, reason := some "DRAWDOWN HALT — trading suspended" }

/-- `RiskManager._check_drawdown` (`bot/risk/manager.py` lines 105-155).
Returns (breached, new `_halted` flag).  The DRAWDOWN_HALT / WARNING bus
publishes are wrapped in `try`/`except: pass` in the source and the warning
branch has no state effect, so neither appears here. -/
def check_drawdown (cfg : BotConfig) (inv : Inventory) (halted : Bool) :
    Bool × Bool :=
  if halted then (true, true)
  else if inv.portfolio_value ≤ cfg.drawdown_threshold then (true, true)
  else (false, halted)

/-- `RiskManager._check_daily_volume` (`bot/risk/manager.py` lines 157-172).
Returns a REJECT verdict or `none`.  NOTE (faithful to the source): in the
downsize branch the source rebinds its *local* `signal` to a smaller copy,
logs, and then returns `None` — the downsized signal never reaches the
caller, so this model's downsize branch is indistinguishable from the
no-adjustment branch. -/
def check_daily_volume (cfg : BotConfig) (vol : VolumeFetch) (signal : Signal)
    (trade_usd : ℚ) : Except String (Option RiskVerdict) :=
  match vol with
  | .error e => .error e
  | .ok row =>
      let today_vol := row.getD 0
      if cfg.daily_volume_cap_usd < today_vol + trade_usd then
        let remaining := cfg.daily_volume_cap_usd - today_vol
        if remaining ≤ 0 then
          .ok (some { allowed := false, reason := some "daily volume cap reached" })
        else
          -- `signal = replace(signal, size=remaining / signal.price)` is a
          -- local rebinding in the source, discarded on return
          .ok none
      else .ok none

/-- Check 6 of `RiskManager.check_signal` (`bot/risk/manager.py` lines
90-99): portfolio-wide exposure, followed by the final ALLOWED verdict.
`h` is the `_halted` flag to report back. -/
def check_portfolio_exposure (cfg : BotConfig) (inv : Inventory)
    (signal : Signal) (trade_usd : ℚ) (h : Bool) :
    Except String (RiskVerdict × Bool) :=
  let total_exp := inv.get_total_exposure
  if cfg.max_portfolio_exposure_usd < total_exp + trade_usd then
    let remaining := cfg.max_portfolio_exposure_usd - total_exp
    if remaining ≤ 0 then
      .ok ({ allowed := false,
             reason := some "portfolio exposure limit reached" }, h)
    else
      .ok ({ allowed := true,
             adjusted_signal :=
               some { signal with size := remaining / signal.price } }, h)
  else
    .ok ({ allowed := true, adjusted_signal := some signal }, h)

/-- Check 5 of `RiskManager.check_signal` (`bot/risk/manager.py` lines
79-88): per-market exposure limits BUY orders only; on a partial downsize
the running `trade_usd` becomes the remaining headroom before the flow
continues into check 6. -/
def check_market_exposure (cfg : BotConfig) (inv : Inventory)
    (signal : Signal) (trade_usd : ℚ) (h : Bool) :
    Except String (RiskVerdict × Bool) :=
  if signal.side = Side.BUY then
    let market_exp := inv.get_market_exposure signal.condition_id
    if cfg.max_per_market_usd < market_exp + trade_usd then
      let remaining := cfg.max_per_market_usd - market_exp
      if remaining ≤ 0 then
        .ok ({ allowed := false,
               reason := some "per-market exposure limit reached" }, h)
      else
        check_portfolio_exposure cfg inv
          { signal with size := remaining / signal.price } remaining h
    else check_portfolio_exposure cfg inv signal trade_usd h
  else check_portfolio_exposure cfg inv signal trade_usd h

/-- Checks 3-6 of `RiskManager.check_signal` (`bot/risk/manager.py` lines
70-99) on the post-cap signal: daily volume cap, open-positions limit, then
the exposure checks. -/
def check_volume_and_limits (cfg : BotConfig) (inv : Inventory)
    (vol : VolumeFetch) (signal : Signal) (trade_usd : ℚ) (h : Bool) :
    Except String (RiskVerdict × Bool) :=
  -- 3. Daily volume cap
  match check_daily_volume cfg vol signal trade_usd with
  | .error e => .error e
  | .ok (some verdict) => .ok (verdict, h)
  | .ok none =>
    -- 4. Open positions limit
    if cfg.max_open_positions ≤ inv.get_open_position_count then
      .ok ({ allowed := false, reason := some "max open positions reached" }, h)
    else
      -- 5. Per-market exposure (BUY only), then 6. portfolio-wide exposure
      check_market_exposure cfg inv signal trade_usd h

/-- `RiskManager.check_signal` (`bot/risk/manager.py` lines 52-99).  Takes
the current `_halted` flag and returns the verdict together with the new
flag; a database exception from the daily-volume read propagates.  Checks
3-6 are the named helpers above.  After check 2 the source keeps
`trade_usd = capped_size * signal.price` in the capped branch and the
untouched product otherwise; both equal `size * price` of the post-cap
signal, which is how the running value is passed on here. -/
def check_signal (cfg : BotConfig) (inv : Inventory) (vol : VolumeFetch)
    (halted : Bool) (signal : Signal) : Except String (RiskVerdict × Bool) :=
  -- 1. Drawdown kill switch
  match check_drawdown cfg inv halted with
  | (true, h) => .ok (haltVerdict, h)
  | (false, h) =>
    -- 2. Trade size cap
    let signal :=
      if cfg.max_trade_size_usd < signal.size * signal.price then
        { signal with size := cfg.max_trade_size_usd / signal.price }
      else signal
    check_volume_and_limits cfg inv vol signal (signal.size * signal.price) h

/-- One `check_signal` invocation's inputs: the inventory and database state
it observes, and the signal it is asked about. -/
structure GateCall where
  inv : Inventory
  vol : VolumeFetch
  signal : Signal
  deriving Repr

/-- A sequence of `check_signal` calls threading the `_halted` flag exactly
as the single `RiskManager` instance does over its process lifetime.
`_halted` is mutated only inside `_check_drawdown`, which runs before the
database read, so a propagated exception leaves the flag unchanged. -/
def runGate (cfg : BotConfig) :
    Bool → List GateCall → List (Except String RiskVerdict) × Bool
  | halted, [] => ([], halted)
  | halted, c :: rest =>
    match check_signal cfg c.inv c.vol halted c.signal with
    | .ok (v, h) =>
        let r := runGate cfg h rest
        (.ok v :: r.1, r.2)
    | .error e =>
        let r := runGate cfg halted rest
        (.error e :: r.1, r.2)

/-- `jitter_size` (`bot/risk/anti_detection.py`): `u` is the value the source
draws from `random.uniform(-pct, pct)`. -/
def jitter_size (size : ℚ) (pct : ℚ) (u : ℚ) : ℚ :=
  if pct ≤ 0 then size else max 0 (size * (1 + u))

/-- Synthetic order id of `DryRunExecutor.execute`
(`f"DRY-{counter:06d}"`). -/
def dryOrderId (counter : ℕ) : String :=
  let s := toString counter
  "DRY-" ++ String.mk (List.replicate (6 - s.length) '0') ++ s

/-- The exchange response dict of `create_and_post_limit_order` as consumed
by `OrderManager._execute_live`: `fillPrice` / `fillSize` already carry the
`float(resp.get(..., 0))` default, `status` the raw string. -/
structure LiveResp where
  status : String
  fillPrice : ℚ := 0
  fillSize : ℚ := 0
  fee : ℚ := 0
  orderID : Option String := none
  id : Option String := none
  deriving Repr, DecidableEq

/-- Python `str.lower()` (character-wise lowering; the statuses compared
here are ASCII). -/
def pyLower (s : String) : String := String.mk (s.data.map Char.toLower)

/-- Python `a or b` on optional strings (`resp.get("orderID") or
resp.get("id")`): an empty string is falsy. -/
def pyOrStr (a b : Option String) : Option String :=
  match a with
  | some s => if s = "" then b else some s
  | none => b

/-- `OrderManager._execute_live` (`bot/execution/order_manager.py` lines
135-166) as a function of the exchange call's outcome.  `fillPrice or (0.0
if is_resting else signal.price)` uses float truthiness: a zero reported
fill falls back, a nonzero one is kept even when the status is `live`. -/
def execute_live (signal : Signal) (resp : Except String LiveResp) :
    OrderResult :=
  match resp with
  | .error msg =>
      { signal := signal, success := false, error := some msg,
        is_dry_run := false }
  | .ok r =>
      let status := pyLower r.status
      let is_resting := status = "live"
      let fill_price :=
        if r.fillPrice = 0 then (if is_resting then 0 else signal.price)
        else r.fillPrice
      let fill_size :=
        if r.fillSize = 0 then (if is_resting then 0 else signal.size)
        else r.fillSize
      { signal := signal, success := true,
        order_id := pyOrStr r.orderID r.id,
        fill_price := fill_price, fill_size := fill_size,
        fee_paid := r.fee, is_dry_run := false }

/-- Value type of the `data` dict of the TRADE_EXECUTED event. -/
inductive JVal
  | s (v : String)
  | q (v : ℚ)
  | b (v : Bool)
  | sd (v : Side)
  | st (v : StrategyTag)
  | null
  deriving Repr, DecidableEq

/-- `OrderManager._publish_trade_event` (`bot/execution/order_manager.py`
lines 180-204): the `data` dict of the published TRADE_EXECUTED event, key
by key in source order.  `result.signal.market_question or "???"` treats
`None` and the empty string as falsy. -/
def publish_trade_event (inv : Inventory) (result : OrderResult) :
    List (String × JVal) :=
  let fill_price :=
    if result.fill_price = 0 then result.signal.price else result.fill_price
  let fill_size :=
    if result.fill_size = 0 then result.signal.size else result.fill_size
  [("strategy", .st result.signal.strategy),
   ("token_id", .s result.signal.token_id),
   ("side", .sd result.signal.side),
   ("price", .q fill_price),
   ("size", .q fill_size),
   ("success", .b result.success),
   ("order_id", match result.order_id with | some i => .s i | none => .null),
   ("is_dry_run", .b result.is_dry_run),
   ("error", match result.error with | some e => .s e | none => .null),
   ("market", .s (match result.signal.market_question with
                  | some q => if q = "" then "???" else q
                  | none => "???")),
   ("pnl", .q 0),
   ("balance", .q inv.balance),
   ("positions_value", .q inv.get_total_exposure)]

/-- Mutable state the order pipeline touches: the shared inventory, the risk
gate's `_halted` latch, and `DryRunExecutor._counter`. -/
structure EngineState where
  inventory : Inventory
  halted : Bool
  dry_counter : ℕ
  deriving Repr, DecidableEq

/-- `OrderManager.execute_signal` (`bot/execution/order_manager.py` lines
58-94).  `vol` is the daily-volume read the risk check performs, `u` the
jitter draw, `live` the exchange response were a live order placed.  A
database exception raised inside the risk check propagates (the source does
not catch it).  `_log_trade` wraps its own body in `try`/`except` and
touches only the database, and `_publish_trade_event`'s bus put is
non-blocking with failures swallowed, so neither changes this state. -/
def execute_signal (cfg : BotConfig) (vol : VolumeFetch) (u : ℚ)
    (live : Except String LiveResp) (st : EngineState) (signal : Signal) :
    Except String (OrderResult × EngineState) :=
  -- 1. Risk check
  match check_signal cfg st.inventory vol st.halted signal with
  | .error e => .error e
  | .ok (verdict, h) =>
    let st := { st with halted := h }
    if verdict.allowed = false then
      .ok ({ signal := signal, success := false, error := verdict.reason,
             is_dry_run := cfg.dry_run }, st)
    else
      -- Use adjusted signal if risk manager modified size
      let active_signal := verdict.adjusted_signal.getD signal
      -- 2. Anti-detection jitter
      let jittered_size := jitter_size active_signal.size cfg.size_jitter_pct u
      let active_signal := { active_signal with size := jittered_size }
      -- 3. Execute (`DryRunExecutor.execute` bumps its class counter)
      let result :=
        if cfg.dry_run then
          { signal := active_signal, success := true,
            order_id := some (dryOrderId (st.dry_counter + 1)),
            fill_price := active_signal.price,
            fill_size := active_signal.size,
            fee_paid := 0, is_dry_run := true }
        else execute_live active_signal live
      let st :=
        if cfg.dry_run then { st with dry_counter := st.dry_counter + 1 }
        else st
      -- 4. Update inventory
      let st := { st with inventory := st.inventory.update_on_fill result }
      -- 5. Log to DB (external, exceptions swallowed) / 6. Publish event
      .ok (result, st)

/-- Per-call environment stream for a run of the pipeline: the `n`-th
`execute_signal` call sees `vol n`, `u n` and `live n`. -/
structure ExecEnv where
  vol : ℕ → VolumeFetch
  u : ℕ → ℚ
  live : ℕ → Except String LiveResp

/-- Serial execution of a list of signals in emission order, threading the
engine state; `n` numbers the calls.  This is the inner
`for sig in batch: ... append(result)` loop of `execute_batch`, and also the
reference semantics ("execute every signal serially, in order") the batch
function is compared against.  An exception aborts the run, as an uncaught
exception aborts the Python loop. -/
def runSignals (cfg : BotConfig) (env : ExecEnv) :
    ℕ → EngineState → List Signal →
    Except String (List OrderResult × EngineState × ℕ)
  | n, st, [] => .ok ([], st, n)
  | n, st, s :: rest =>
    match execute_signal cfg (env.vol n) (env.u n) (env.live n) st s with
    | .error e => .error e
    | .ok (r, st') =>
      match runSignals cfg env (n + 1) st' rest with
      | .error e => .error e
      | .ok (rs, stf, nf) => .ok (r :: rs, stf, nf)

/-- `MAX_BATCH_ORDERS` from `bot/constants.py` line 28. -/
def MAX_BATCH_ORDERS : ℕ := 15

/-- The successive slices `signals[batch_start : batch_start +
MAX_BATCH_ORDERS]` taken by `execute_batch`'s outer loop. -/
def toBatches (signals : List Signal) : List (List Signal) :=
  match signals with
  | [] => []
  | x :: xs =>
    (x :: xs).take MAX_BATCH_ORDERS ::
      toBatches ((x :: xs).drop MAX_BATCH_ORDERS)
termination_by signals.length
decreasing_by
  simp only [List.length_drop, List.length_cons, MAX_BATCH_ORDERS]
  omega

/-- `OrderManager.execute_batch` (`bot/execution/order_manager.py` lines
96-104): iterate the `MAX_BATCH_ORDERS`-sized slices, executing each signal
of each slice serially and appending every result to one list. -/
def execute_batch (cfg : BotConfig) (env : ExecEnv) (st : EngineState)
    (signals : List Signal) : Except String (List OrderResult × EngineState) :=
  match go 0 st (toBatches signals) with
  | .error e => .error e
  | .ok (rs, stf, _) => .ok (rs, stf)
where
  /-- The outer `for batch_start in range(0, len(signals), MAX_BATCH_ORDERS)`
  loop. -/
  go : ℕ → EngineState → List (List Signal) →
      Except String (List OrderResult × EngineState × ℕ)
  | n, st, [] => .ok ([], st, n)
  | n, st, batch :: batches =>
    match runSignals cfg env n st batch with
    | .error e => .error e
    | .ok (rs, st', n') =>
      match go n' st' batches with
      | .error e => .error e
      | .ok (rs', stf, nf) => .ok (rs ++ rs', stf, nf)

/-- Python 3 `round(q)` on an exact value: round half to even. -/
def pythonRound (q : ℚ) : ℤ :=
  let f := ⌊q⌋
  let r := q - f
  if r < 1/2 then f
  else if 1/2 < r then f + 1
  else if 2 ∣ f then f else f + 1

/-- Python `round(q, n)`. -/
def pythonRoundN (q : ℚ) (n : ℕ) : ℚ :=
  (pythonRound (q * 10 ^ n) : ℚ) / 10 ^ n

/-- `round_to_tick` (`bot/utils/math.py` lines 112-116):
`round(round(price / tick) * tick, 10)`, with non-positive ticks passed
through. -/
def round_to_tick (price : ℚ) (tick : ℚ := 1/100) : ℚ :=
  if tick ≤ 0 then price
  else pythonRoundN ((pythonRound (price / tick) : ℚ) * tick) 10

/-- `pythonRound` is the identity on integers. -/
theorem pythonRound_intCast (n : ℤ) : pythonRound (n : ℚ) = n := by
  unfold pythonRound
  simp only [Int.floor_intCast, sub_self]
  norm_num

/-- At the default tick, `round_to_tick` lands on the nearest hundredth: the
outer `round(·, 10)` is the identity there. -/
theorem round_to_tick_cents (q : ℚ) :
    round_to_tick q (1/100) = (pythonRound (q * 100) : ℚ) / 100 := by
  unfold round_to_tick pythonRoundN
  rw [if_neg (by norm_num)]
  have h1 : q / (1/100) = q * 100 := by ring
  rw [h1]
  have h2 : (pythonRound (q * 100) : ℚ) * (1/100) * 10 ^ 10
      = ((pythonRound (q * 100) * 10 ^ 8 : ℤ) : ℚ) := by
    push_cast
    ring
  rw [h2, pythonRound_intCast]
  push_cast
  ring

/-- `pythonRound` never exceeds the ceiling. -/
theorem pythonRound_le_ceil (q : ℚ) : pythonRound q ≤ ⌈q⌉ := by
  have hfc : ⌊q⌋ ≤ ⌈q⌉ := Int.floor_le_ceil q
  simp only [pythonRound]
  split
  · exact hfc
  · next h1 =>
    have hlt : (⌊q⌋ : ℚ) < q := by
      rcases lt_or_eq_of_le (Int.floor_le q) with h | h
      · exact h
      · exact absurd (by rw [← h]; norm_num : q - (⌊q⌋ : ℚ) < 1/2) h1
    have hsucc : ⌊q⌋ + 1 ≤ ⌈q⌉ := Int.lt_ceil.mpr hlt
    split
    · exact hsucc
    · split
      · exact hfc
      · exact hsucc

/-- Stepping a price down one tick strictly shrinks the (positive) number of
cents rounded up, which bounds the number of remaining FOK attempts. -/
theorem sell_step_measure_lt (p : ℚ) (hp : 1/100 ≤ p) :
    (⌈round_to_tick (p - 1/100) (1/100) * 100⌉).toNat < (⌈p * 100⌉).toNat := by
  have h1 : round_to_tick (p - 1/100) (1/100) * 100
      = (pythonRound ((p - 1/100) * 100) : ℚ) := by
    rw [round_to_tick_cents]
    ring
  rw [h1, Int.ceil_intCast]
  have h3 : (p - 1/100) * 100 = p * 100 - 1 := by ring
  have h2 : pythonRound ((p - 1/100) * 100) ≤ ⌈p * 100⌉ - 1 := by
    have hle := pythonRound_le_ceil ((p - 1/100) * 100)
    have hc : ⌈(p - 1/100) * 100⌉ = ⌈p * 100⌉ - 1 := by
      rw [h3, show (p * 100 - 1 : ℚ) = p * 100 - ((1 : ℤ) : ℚ) by norm_num,
        Int.ceil_sub_int]
    rw [hc] at hle
    exact hle
  have h5 : 1 ≤ ⌈p * 100⌉ := by
    have hq : (0 : ℚ) < p * 100 := by linarith
    exact Int.ceil_pos.mpr hq
  omega

/-- The retry loop of `LiquidityStrategy._sell_position`
(`bot/strategies/liquidity.py` lines 730-774): post a FOK SELL at
`sell_price`; on success return `(True, sell_price)`; on exchange rejection
step the price down one tick and retry while `sell_price >= 0.01`; once the
price drops below one cent return `(False, 0.0)`.  `accept n` says whether
the exchange fills attempt number `n`; the returned list records the prices
attempted, in order.  Totality of this definition is the termination
argument for the source loop. -/
def sell_loop (accept : ℕ → Bool) (attempt : ℕ) (sell_price : ℚ) :
    List ℚ × Bool × ℚ :=
  if h : 1/100 ≤ sell_price then
    if accept (attempt + 1) then ([sell_price], true, sell_price)
    else
      let r := sell_loop accept (attempt + 1) (round_to_tick (sell_price - 1/100))
      (sell_price :: r.1, r.2)
  else ([], false, 0)
termination_by (⌈sell_price * 100⌉).toNat
decreasing_by exact sell_step_measure_lt sell_price h

/-- Starting price selection of `LiquidityStrategy._sell_position`
(`bot/strategies/liquidity.py` lines 709-728).  `best_bid` is `None` when
the book fetch failed or the book has no bids; `if best_bid and best_bid >
0` treats `None` and `0.0` as falsy.  `price` is the tracked fill price
passed by the caller. -/
def sell_start_price (best_bid : Option ℚ) (price : ℚ) : ℚ :=
  match best_bid with
  | some bb =>
      if bb ≠ 0 ∧ 0 < bb then max (1/100) (round_to_tick bb)
      else max (1/100) (round_to_tick price)
  | none => max (1/100) (round_to_tick price)

/-- The exit-sell of `_sell_position` after the allowance and balance steps:
pick the starting price, then run the FOK step-down loop (attempt counter
starts at 0 and is incremented at the top of each iteration). -/
def sell_position_loop (best_bid : Option ℚ) (price : ℚ)
    (accept : ℕ → Bool) : List ℚ × Bool × ℚ :=
  sell_loop accept 0 (sell_start_price best_bid price)

/-- Modelled from the spec: `TokenInfo` lives in `bot/types.py`, not under
`src/`; fields follow the construction in
`LiquidityFlipStrategy._convert_reward_markets` and the reads in
`ArbitrageStrategy.scan`. -/
structure TokenInfo where
  token_id : String
  outcome : String
  price : ℚ
  deriving Repr, DecidableEq

/-- Modelled from the spec: `Market` lives in `bot/types.py`, not under
`src/`; fields follow §3 of the spec and the construction in
`_convert_reward_markets`. -/
structure Market where
  condition_id : String
  question : String
  tokens : List TokenInfo
  active : Bool
  min_incentive_size : ℚ := 0
  max_incentive_spread : ℚ := 0
  daily_reward_usd : ℚ := 0
  end_date : Option String := none
  deriving Repr, DecidableEq

/-- Modelled from the spec: `OrderBook` lives in `bot/types.py`, not under
`src/`; §3 of the spec fixes bids sorted descending, asks ascending, with
`best_bid` / `best_ask` the first entry or none.  Only the price ladder is
needed here. -/
structure OrderBook where
  bids : List ℚ
  asks : List ℚ
  deriving Repr, DecidableEq

/-- `best_bid` of an order book: first bid or none. -/
def OrderBook.best_bid (book : OrderBook) : Option ℚ := book.bids.head?

/-- `best_ask` of an order book: first ask or none. -/
def OrderBook.best_ask (book : OrderBook) : Option ℚ := book.asks.head?

/-- Loop body of `ArbitrageStrategy.scan` (`bot/strategies/arbitrage.py`
lines 89-162) for one market.  `getBook` is the CLOB book fetch; any
exception inside the `try` (including the `next(...)` over tokens) skips
the market, as do a missing best ask and an insufficient profit.  The
EDGE_DETECTED publish and logs carry no state.  The per-signal free-text
`reason` string (`f"arb profit=..."`) is elided with the field. -/
def arb_scan_market (cfg : BotConfig)
    (getBook : String → Except String OrderBook) (market : Market) :
    List Signal :=
  let min_profit := cfg.arb_min_profit_cents / 100
  let max_trade := cfg.max_trade_size_usd
  if ¬(market.active = true ∧ market.tokens.length = 2) then []
  else
    match market.tokens.find? (fun t => t.outcome = "Yes"),
        market.tokens.find? (fun t => t.outcome = "No") with
    | some yes_token, some no_token =>
      match getBook yes_token.token_id, getBook no_token.token_id with
      | .ok yes_book, .ok no_book =>
        match yes_book.best_ask, no_book.best_ask with
        | some yes_ask, some no_ask =>
          let cost := yes_ask + no_ask
          let profit := 1 - cost
          if profit < min_profit then []
          else
            -- Determine sizes — scale so total outlay <= max_trade
            let trade_amount := min max_trade max_trade
            let yes_size := trade_amount * (1 - no_ask)
            let no_size := trade_amount * (1 - yes_ask)
            [{ strategy := .ARBITRAGE,
               token_id := yes_token.token_id,
               condition_id := market.condition_id,
               side := .BUY,
               price := yes_ask,
               size := yes_size,
               order_type := .FOK,
               edge := some profit,
               market_question := some market.question },
             { strategy := .ARBITRAGE,
               token_id := no_token.token_id,
               condition_id := market.condition_id,
               side := .BUY,
               price := no_ask,
               size := no_size,
               order_type := .FOK,
               edge := some profit,
               market_question := some market.question }]
        | _, _ => []
      | _, _ => []
    | _, _ => []

/-- `ArbitrageStrategy.scan` over the fetched market list: signals are
accumulated per market, in market order. -/
def arb_scan (cfg : BotConfig) (getBook : String → Except String OrderBook)
    (markets : List Market) : List Signal :=
  (markets.map (arb_scan_market cfg getBook)).flatten

/-- `FlipPhase` from `bot/strategies/liquidity_flip.py`. -/
inductive FlipPhase
  | IDLE
  | RESTING_ENTRY
  | RESTING_EXIT
  deriving Repr, DecidableEq

/-- `FlipCycleState` dataclass from `bot/strategies/liquidity_flip.py`
(timestamps elided; they never feed a computation modelled here). -/
structure FlipCycleState where
  condition_id : String := ""
  market_question : String := ""
  entry_side : String := ""
  entry_token_id : String := ""
  entry_price : ℚ := 0
  entry_shares : ℚ := 0
  entry_order_id : String := ""
  exit_side : String := ""
  exit_token_id : String := ""
  exit_price : ℚ := 0
  exit_shares : ℚ := 0
  exit_order_id : String := ""
  db_id : ℕ := 0
  deriving Repr, DecidableEq

/-- One entry of `LiquidityFlipStrategy._recent_flips` (the dict appended in
`_complete_cycle`). -/
structure FlipRecord where
  market : String
  entry_side : String
  entry_price : ℚ
  exit_price : ℚ
  profit : ℚ
  status : String
  deriving Repr, DecidableEq

/-- The flip strategy's mutable state: `_phase`, `_cycle`, and the lifetime
stats `_total_profit`, `_total_flips`, `_recent_flips`. -/
structure FlipState where
  phase : FlipPhase
  cycle : Option FlipCycleState
  total_profit : ℚ
  total_flips : ℕ
  recent_flips : List FlipRecord
  deriving Repr, DecidableEq

/-- `LiquidityFlipStrategy._complete_cycle` (`bot/strategies/liquidity_flip.py`
lines 774-812): bump the lifetime stats, append a record (keeping the last
20), write the `flip_cycles` row (external database, exceptions logged and
swallowed), and reset the machine to IDLE. -/
def complete_cycle (st : FlipState) (cycle : FlipCycleState) (profit : ℚ)
    (status : String) : FlipState :=
  let recent := st.recent_flips ++
    [{ market := cycle.market_question.take 40,
       entry_side := cycle.entry_side,
       entry_price := cycle.entry_price,
       exit_price := cycle.exit_price,
       profit := pythonRoundN profit 4,
       status := status }]
  let recent := if 20 < recent.length then recent.drop (recent.length - 20)
    else recent
  { phase := .IDLE, cycle := none,
    total_profit := st.total_profit + profit,
    total_flips := st.total_flips + 1,
    recent_flips := recent }

/-- `LiquidityFlipStrategy._do_resting_exit` (`bot/strategies/liquidity_flip.py`
lines 336-416) after the poll sleep.  `current_price` is the result of
`get_price(entry_token, "SELL")` with an exception already folded to `0.0`;
`exit_filled` is `_is_order_filled(exit_order_id)`.  The second component
reports the `(profit, status)` pair a `_complete_cycle` call wrote to the
database row, `none` when no cycle completed.  The stop-loss branch's
`cancel_order` and `_emergency_exit` calls touch only the exchange; the
completed branch's `update_daily_volume` sits in a swallowed `try` (and in
fact dies on the missing `Strategy.LP_FLIP` member). -/
def do_resting_exit (cfg : BotConfig) (st : FlipState) (current_price : ℚ)
    (exit_filled : Bool) : FlipState × Option (ℚ × String) :=
  match st.cycle with
  | none => ({ st with phase := .IDLE }, none)
  | some cycle =>
    if 0 < current_price ∧ 0 < cycle.entry_price ∧
        cfg.lp_flip_stop_loss_pct ≤
          (cycle.entry_price - current_price) / cycle.entry_price then
      let profit := (current_price - cycle.entry_price) * cycle.entry_shares
      (complete_cycle st cycle profit "stop_loss", some (profit, "stop_loss"))
    else if cycle.exit_order_id = "" then
      ({ st with phase := .IDLE, cycle := none }, none)
    else if exit_filled = false then (st, none)
    else
      -- Exit filled!  Profit = redeemable minus both legs' cost
      let entry_cost := cycle.entry_price * cycle.entry_shares
      let exit_cost := cycle.exit_price * cycle.exit_shares
      let redeemable := min cycle.entry_shares cycle.exit_shares
      let profit := redeemable - entry_cost - exit_cost
      (complete_cycle st cycle profit "completed", some (profit, "completed"))

/-- Configuration with the `bot/config.py` defaults for the fields modelled
here (`dry_run=True`, `$500` start, `$250` drawdown, `$25` trade cap,
`$25000` daily cap, 15 open positions, `$100` per market, `$400` portfolio,
0.5¢ arbitrage profit floor, 10% size jitter, 25% flip stop-loss). -/
def cfg0 : BotConfig :=
  { dry_run := true, starting_balance_usd := 500, max_drawdown_usd := 250,
    max_trade_size_usd := 25, daily_volume_cap_usd := 25000,
    max_open_positions := 15, max_per_market_usd := 100,
    max_portfolio_exposure_usd := 400, arb_min_profit_cents := 1/2,
    size_jitter_pct := 1/10, lp_flip_stop_loss_pct := 1/4 }

/-- Fresh inventory at the starting balance. -/
def inv0 : Inventory := { balance := 500, positions := [] }

/-- A small sample BUY signal. -/
def sig0 : Signal :=
  { strategy := .ARBITRAGE, token_id := "tokY", condition_id := "cond1",
    side := .BUY, price := 1/2, size := 10, order_type := .GTC }

/-- Every `check_signal` with an in-range portfolio and a successful
database read reaches one of the `.ok` leaves: `check_daily_volume` never
errors on an `.ok` read. -/
theorem check_daily_volume_ok (cfg : BotConfig) (row : Option ℚ) (s : Signal)
    (t : ℚ) : ∃ o, check_daily_volume cfg (.ok row) s t = .ok o := by
  simp only [check_daily_volume]
  split
  · split
    · exact ⟨_, rfl⟩
    · exact ⟨_, rfl⟩
  · exact ⟨_, rfl⟩

/-- Check 6 always returns a verdict. -/
theorem check_portfolio_exposure_ok (cfg : BotConfig) (inv : Inventory)
    (s : Signal) (t : ℚ) (h : Bool) :
    ∃ v h2, check_portfolio_exposure cfg inv s t h = .ok (v, h2) := by
  simp only [check_portfolio_exposure]
  split
  · split
    · exact ⟨_, _, rfl⟩
    · exact ⟨_, _, rfl⟩
  · exact ⟨_, _, rfl⟩

/-- Checks 5-6 always return a verdict. -/
theorem check_market_exposure_ok (cfg : BotConfig) (inv : Inventory)
    (s : Signal) (t : ℚ) (h : Bool) :
    ∃ v h2, check_market_exposure cfg inv s t h = .ok (v, h2) := by
  simp only [check_market_exposure]
  split
  · split
    · split
      · exact ⟨_, _, rfl⟩
      · exact check_portfolio_exposure_ok _ _ _ _ _
    · exact check_portfolio_exposure_ok _ _ _ _ _
  · exact check_portfolio_exposure_ok _ _ _ _ _

/-- `check_daily_volume` cannot surface an error when its read succeeded. -/
theorem check_daily_volume_ok_ne_error (cfg : BotConfig) (row : Option ℚ)
    (s : Signal) (t : ℚ) (e : String) :
    check_daily_volume cfg (.ok row) s t ≠ .error e := by
  obtain ⟨o, ho⟩ := check_daily_volume_ok cfg row s t
  simp [ho]

/-- Checks 3-6 always return a verdict when the database read succeeded. -/
theorem check_volume_and_limits_ok (cfg : BotConfig) (inv : Inventory)
    (row : Option ℚ) (s : Signal) (t : ℚ) (h : Bool) :
    ∃ v h2, check_volume_and_limits cfg inv (.ok row) s t h = .ok (v, h2) := by
  simp only [check_volume_and_limits]
  split
  · rename_i heq
    exact absurd heq (check_daily_volume_ok_ne_error _ _ _ _ _)
  · exact ⟨_, _, rfl⟩
  · split
    · exact ⟨_, _, rfl⟩
    · exact check_market_exposure_ok _ _ _ _ _

/-- C1: once a `check_signal` call observes portfolio value (inventory
balance plus total exposure) at or below `starting_balance_usd −
max_drawdown_usd` it latches `_halted`, and from then on every
`check_signal` call — for every signal, inventory and database state —
returns the DRAWDOWN-HALT rejection with `allowed = false`, with the latch
still set after the whole sequence; no risk-gate operation clears it. -/
theorem drawdown_latch_rejects_forever :
    (∀ (cfg : BotConfig) (inv : Inventory) (vol : VolumeFetch) (s : Signal),
        inv.portfolio_value ≤ cfg.drawdown_threshold →
        check_signal cfg inv vol false s = .ok (haltVerdict, true)) ∧
    (∀ (cfg : BotConfig) (calls : List GateCall),
        runGate cfg true calls =
          (calls.map fun _ => Except.ok haltVerdict, true)) := by
  constructor
  · intro cfg inv vol s hle
    unfold check_signal check_drawdown
    simp [hle]
  · intro cfg calls
    induction calls with
    | nil => rfl
    | cons c rest ih =>
      have hc : check_signal cfg c.inv c.vol true c.signal
          = .ok (haltVerdict, true) := rfl
      simp only [runGate, hc, ih, List.map_cons]

/-- Concrete instance of the C1 theorem: a portfolio of `$200 ≤ $250`
latches the gate and a subsequent call is rejected. -/
theorem drawdown_latch_rejects_forever_witness :
    check_signal cfg0 { balance := 200, positions := [] } (.ok none) false sig0
        = .ok (haltVerdict, true) ∧
    runGate cfg0 true [{ inv := inv0, vol := .ok none, signal := sig0 }]
        = ([.ok haltVerdict], true) :=
  ⟨drawdown_latch_rejects_forever.1 cfg0 { balance := 200, positions := [] }
      (.ok none) sig0
      (by norm_num [Inventory.portfolio_value, Inventory.get_total_exposure,
        BotConfig.drawdown_threshold, cfg0]),
   drawdown_latch_rejects_forever.2 cfg0
      [{ inv := inv0, vol := .ok none, signal := sig0 }]⟩

/-- C9 (amended): whenever the daily-volume database read succeeds,
`check_signal` returns a `RiskVerdict` for every signal and every gate
state — no other step can raise. -/
theorem check_signal_total_when_db_ok (cfg : BotConfig) (inv : Inventory)
    (row : Option ℚ) (halted : Bool) (s : Signal) :
    ∃ v h2, check_signal cfg inv (.ok row) halted s = .ok (v, h2) := by
  unfold check_signal
  split
  · exact ⟨_, _, rfl⟩
  · exact check_volume_and_limits_ok _ _ _ _ _ _

/-- C9 counterexample to the claim as stated: with the persistence layer
failing on the daily-volume read, `check_signal` propagates the exception
to its caller instead of returning a verdict. -/
theorem check_signal_raises_on_db_failure :
    check_signal cfg0 inv0 (.error "db connection failed") false sig0
      = .error "db connection failed" := by
  unfold check_signal check_drawdown check_volume_and_limits
    check_daily_volume
  norm_num [cfg0, inv0, sig0, Inventory.portfolio_value,
    Inventory.get_total_exposure, BotConfig.drawdown_threshold]

/-- A `some` verdict out of `check_daily_volume` is always the REJECT. -/
theorem check_daily_volume_some_rejects (cfg : BotConfig) (vol : VolumeFetch)
    (s : Signal) (t : ℚ) (w : RiskVerdict)
    (hck : check_daily_volume cfg vol s t = .ok (some w)) :
    w.allowed = false := by
  simp only [check_daily_volume] at hck
  split at hck
  · simp at hck
  · split at hck
    · split at hck
      · simp only [Except.ok.injEq, Option.some.injEq] at hck
        rw [← hck]
      · simp at hck
    · simp at hck

/-- Shape of an ALLOWED verdict out of check 6: the adjusted signal keeps
the incoming price and its notional stays within the incoming
`trade_usd`. -/
theorem check_portfolio_allowed (cfg : BotConfig) (inv : Inventory)
    (s : Signal) (t : ℚ) (h : Bool) (v : RiskVerdict) (h2 : Bool)
    (hp : 0 < s.price) (ht0 : 0 ≤ t) (hts : s.size * s.price = t)
    (hck : check_portfolio_exposure cfg inv s t h = .ok (v, h2))
    (hal : v.allowed = true) :
    ∃ s2, v.adjusted_signal = some s2 ∧ s2.price = s.price ∧
      0 ≤ s2.size ∧ s2.size * s2.price ≤ t := by
  simp only [check_portfolio_exposure] at hck
  split at hck
  · next hover =>
    split at hck
    · simp only [Except.ok.injEq, Prod.mk.injEq] at hck
      rw [← hck.1] at hal
      simp at hal
    · next hrem =>
      simp only [Except.ok.injEq, Prod.mk.injEq] at hck
      obtain ⟨hv, hh⟩ := hck
      subst hv
      refine ⟨_, rfl, rfl, ?_, ?_⟩
      · show (0:ℚ) ≤ (cfg.max_portfolio_exposure_usd
            - inv.get_total_exposure) / s.price
        have hpos : 0 < cfg.max_portfolio_exposure_usd
            - inv.get_total_exposure := by linarith [not_le.mp hrem]
        positivity
      · show (cfg.max_portfolio_exposure_usd - inv.get_total_exposure)
            / s.price * s.price ≤ t
        rw [div_mul_cancel₀ _ (ne_of_gt hp)]
        linarith
  · simp only [Except.ok.injEq, Prod.mk.injEq] at hck
    obtain ⟨hv, hh⟩ := hck
    subst hv
    refine ⟨s, rfl, rfl, ?_, le_of_eq hts⟩
    have hsz : s.size = t / s.price := by
      rw [← hts, mul_div_cancel_right₀ _ (ne_of_gt hp)]
    rw [hsz]
    positivity

/-- Shape of an ALLOWED verdict out of checks 5-6. -/
theorem check_market_allowed (cfg : BotConfig) (inv : Inventory)
    (s : Signal) (t : ℚ) (h : Bool) (v : RiskVerdict) (h2 : Bool)
    (hp : 0 < s.price) (ht0 : 0 ≤ t) (hts : s.size * s.price = t)
    (hck : check_market_exposure cfg inv s t h = .ok (v, h2))
    (hal : v.allowed = true) :
    ∃ s2, v.adjusted_signal = some s2 ∧ s2.price = s.price ∧
      0 ≤ s2.size ∧ s2.size * s2.price ≤ t := by
  simp only [check_market_exposure] at hck
  split at hck
  · split at hck
    · next hover =>
      split at hck
      · simp only [Except.ok.injEq, Prod.mk.injEq] at hck
        rw [← hck.1] at hal
        simp at hal
      · next hrem =>
        have hrem' : (0:ℚ) < cfg.max_per_market_usd
            - inv.get_market_exposure s.condition_id := not_le.mp hrem
        obtain ⟨s2, hadj, hpr, hsz, hbound⟩ :=
          check_portfolio_allowed cfg inv
            { s with size := (cfg.max_per_market_usd
                - inv.get_market_exposure s.condition_id) / s.price }
            (cfg.max_per_market_usd - inv.get_market_exposure s.condition_id)
            h v h2 (by exact hp) (le_of_lt hrem')
            (by exact div_mul_cancel₀ _ (ne_of_gt hp)) hck hal
        exact ⟨s2, hadj, hpr, hsz, by linarith⟩
    · exact check_portfolio_allowed cfg inv s t h v h2 hp ht0 hts hck hal
  · exact check_portfolio_allowed cfg inv s t h v h2 hp ht0 hts hck hal

/-- Shape of an ALLOWED verdict out of checks 3-6. -/
theorem check_volume_and_limits_allowed (cfg : BotConfig) (inv : Inventory)
    (vol : VolumeFetch) (s : Signal) (t : ℚ) (h : Bool) (v : RiskVerdict)
    (h2 : Bool) (hp : 0 < s.price) (ht0 : 0 ≤ t) (hts : s.size * s.price = t)
    (hck : check_volume_and_limits cfg inv vol s t h = .ok (v, h2))
    (hal : v.allowed = true) :
    ∃ s2, v.adjusted_signal = some s2 ∧ s2.price = s.price ∧
      0 ≤ s2.size ∧ s2.size * s2.price ≤ t := by
  simp only [check_volume_and_limits] at hck
  split at hck
  · simp at hck
  · next w heq =>
    simp only [Except.ok.injEq, Prod.mk.injEq] at hck
    rw [← hck.1] at hal
    rw [check_daily_volume_some_rejects _ _ _ _ _ heq] at hal
    cases hal
  · split at hck
    · simp only [Except.ok.injEq, Prod.mk.injEq] at hck
      rw [← hck.1] at hal
      simp at hal
    · exact check_market_allowed cfg inv s t h v h2 hp ht0 hts hck hal

/-- An ALLOWED verdict on an oversized signal carries an adjusted signal at
the original price whose notional fits the per-trade cap. -/
theorem check_signal_allowed_oversized (cfg : BotConfig) (inv : Inventory)
    (vol : VolumeFetch) (halted : Bool) (s : Signal) (v : RiskVerdict)
    (h2 : Bool) (hp : 0 < s.price) (hm : 0 ≤ cfg.max_trade_size_usd)
    (hover : cfg.max_trade_size_usd < s.size * s.price)
    (hck : check_signal cfg inv vol halted s = .ok (v, h2))
    (hal : v.allowed = true) :
    ∃ s2, v.adjusted_signal = some s2 ∧ s2.price = s.price ∧
      0 ≤ s2.size ∧ s2.size * s2.price ≤ cfg.max_trade_size_usd := by
  simp only [check_signal] at hck
  split at hck
  · simp only [Except.ok.injEq, Prod.mk.injEq] at hck
    rw [← hck.1] at hal
    simp [haltVerdict] at hal
  · rw [if_pos hover] at hck
    have hprod : ({ s with size := cfg.max_trade_size_usd / s.price } :
          Signal).size
        * ({ s with size := cfg.max_trade_size_usd / s.price } : Signal).price
        = cfg.max_trade_size_usd := div_mul_cancel₀ _ (ne_of_gt hp)
    obtain ⟨s2, hadj, hpr, hsz, hbound⟩ :=
      check_volume_and_limits_allowed cfg inv vol
        { s with size := cfg.max_trade_size_usd / s.price }
        (({ s with size := cfg.max_trade_size_usd / s.price } : Signal).size
          * ({ s with size := cfg.max_trade_size_usd / s.price } :
              Signal).price)
        _ v h2 (by exact hp) (by rw [hprod]; exact hm) rfl hck hal
    rw [hprod] at hbound
    exact ⟨s2, hadj, hpr, hsz, hbound⟩

/-- Upper bound on the jittered size for a draw `u ≤ pct`. -/
theorem jitter_size_le (size pct u : ℚ) (hs : 0 ≤ size) (hj : 0 ≤ pct)
    (hu : u ≤ pct) : jitter_size size pct u ≤ size * (1 + pct) := by
  unfold jitter_size
  split
  · next hple =>
    have h0 : pct = 0 := le_antisymm hple hj
    subst h0
    nlinarith
  · apply max_le
    · nlinarith
    · nlinarith

/-- Whatever the exchange answers, `_execute_live`'s result carries the
submitted signal. -/
theorem execute_live_signal (sg : Signal) (resp : Except String LiveResp) :
    (execute_live sg resp).signal = sg := by
  cases resp <;> rfl

/-- C2: for a signal whose notional exceeds the per-trade cap that the risk
gate allows, the gate's adjusted signal keeps the original price with its
notional capped at `max_trade_size_usd` (the check-2 replacement, possibly
downsized further by checks 5-6), and the signal the executor (dry-run or
live) is invoked with — recorded as `result.signal` — satisfies
`size · price ≤ max_trade_size_usd · (1 + size_jitter_pct)` for every
jitter draw `u ≤ size_jitter_pct`. -/
theorem per_trade_cap_holds_at_executor (cfg : BotConfig) (vol : VolumeFetch)
    (u : ℚ) (live : Except String LiveResp) (st : EngineState) (s : Signal)
    (v : RiskVerdict) (h2 : Bool)
    (hp : 0 < s.price) (hm : 0 ≤ cfg.max_trade_size_usd)
    (hj : 0 ≤ cfg.size_jitter_pct) (hu : u ≤ cfg.size_jitter_pct)
    (hover : cfg.max_trade_size_usd < s.size * s.price)
    (hck : check_signal cfg st.inventory vol st.halted s = .ok (v, h2))
    (hal : v.allowed = true) :
    (∃ s2, v.adjusted_signal = some s2 ∧ s2.price = s.price ∧
        s2.size * s2.price ≤ cfg.max_trade_size_usd) ∧
    ∀ r st2, execute_signal cfg vol u live st s = .ok (r, st2) →
      r.signal.price = s.price ∧
      r.signal.size * r.signal.price ≤
        cfg.max_trade_size_usd * (1 + cfg.size_jitter_pct) := by
  obtain ⟨s2, hadj, hpr, hsz, hbound⟩ :=
    check_signal_allowed_oversized cfg st.inventory vol st.halted s v h2
      hp hm hover hck hal
  have hjle := jitter_size_le s2.size cfg.size_jitter_pct u hsz hj hu
  have hmain : jitter_size s2.size cfg.size_jitter_pct u * s2.price ≤
      cfg.max_trade_size_usd * (1 + cfg.size_jitter_pct) := by
    have h1 : jitter_size s2.size cfg.size_jitter_pct u * s2.price ≤
        s2.size * (1 + cfg.size_jitter_pct) * s2.price := by
      apply mul_le_mul_of_nonneg_right hjle
      rw [hpr]
      exact le_of_lt hp
    have h2' : s2.size * (1 + cfg.size_jitter_pct) * s2.price
        = s2.size * s2.price * (1 + cfg.size_jitter_pct) := by ring
    have h3 : s2.size * s2.price * (1 + cfg.size_jitter_pct) ≤
        cfg.max_trade_size_usd * (1 + cfg.size_jitter_pct) :=
      mul_le_mul_of_nonneg_right hbound (by linarith)
    linarith
  refine ⟨⟨s2, hadj, hpr, hbound⟩, ?_⟩
  intro r st2 hexec
  simp only [execute_signal, hck, hal, hadj, Option.getD_some] at hexec
  norm_num at hexec
  split at hexec <;>
  · simp only [Except.ok.injEq, Prod.mk.injEq] at hexec
    obtain ⟨hr, _⟩ := hexec
    subst hr
    first
      | exact ⟨hpr, hmain⟩
      | (rw [execute_live_signal]
         exact ⟨hpr, hmain⟩)

/-- Pristine engine state used by the concrete runs below. -/
def st0 : EngineState := { inventory := inv0, halted := false, dry_counter := 0 }

/-- An oversized BUY: notional `100 · $0.50 = $50` against the `$25` cap. -/
def sigOver : Signal :=
  { strategy := .ARBITRAGE, token_id := "tokO", condition_id := "condO",
    side := .BUY, price := 1/2, size := 100, order_type := .GTC }

/-- The verdict the gate returns for `sigOver` under `cfg0`: allowed with
size capped to `25 / 0.5 = 50`. -/
def verdictOver : RiskVerdict :=
  { allowed := true, adjusted_signal := some { sigOver with size := 50 } }

/-- Evaluation of the gate on the oversized signal. -/
theorem check_signal_sigOver :
    check_signal cfg0 st0.inventory (.ok none) st0.halted sigOver
      = .ok (verdictOver, false) := by
  unfold check_signal check_drawdown check_volume_and_limits
    check_daily_volume check_market_exposure check_portfolio_exposure
  norm_num [cfg0, inv0, st0, sigOver, verdictOver, Inventory.portfolio_value,
    Inventory.get_total_exposure, Inventory.get_market_exposure,
    Inventory.get_open_position_count, BotConfig.drawdown_threshold]

/-- The dry-run pipeline result for `sigOver` with jitter draw `u = +10%`:
the capped size 50 is jittered to 55 and filled at the limit price. -/
def resultOver : OrderResult :=
  { signal := { sigOver with size := 55 }, success := true,
    order_id := some (dryOrderId 1), fill_price := 1/2, fill_size := 55,
    fee_paid := 0, is_dry_run := true }

/-- Engine state after the `sigOver` dry-run fill. -/
def stOverAfter : EngineState :=
  { inventory :=
      { balance := 500 - (1/2 * 55 + 0),
        positions := [("tokO",
          { condition_id := "condO", token_id := "tokO", outcome := "",
            size := 55, avg_entry_price := 1/2, strategy := .ARBITRAGE,
            current_price := 1/2 })] },
    halted := false, dry_counter := 1 }

/-- Evaluation of the full pipeline on the oversized signal. -/
theorem execute_signal_sigOver :
    execute_signal cfg0 (.ok none) (1/10) (.error "unused") st0 sigOver
      = .ok (resultOver, stOverAfter) := by
  unfold execute_signal jitter_size Inventory.update_on_fill posLookup posSet
  rw [check_signal_sigOver]
  norm_num [cfg0, inv0, st0, sigOver, verdictOver, resultOver, stOverAfter]

/-- Concrete instance of the C2 theorem: the executor input for `sigOver`
has notional `55 · 0.5 = 27.5 ≤ 25 · 1.1`. -/
theorem per_trade_cap_witness :
    resultOver.signal.price = sigOver.price ∧
    resultOver.signal.size * resultOver.signal.price ≤
      cfg0.max_trade_size_usd * (1 + cfg0.size_jitter_pct) :=
  (per_trade_cap_holds_at_executor cfg0 (.ok none) (1/10) (.error "unused")
      st0 sigOver verdictOver false
      (by norm_num [sigOver]) (by norm_num [cfg0]) (by norm_num [cfg0])
      (by norm_num [cfg0]) (by norm_num [cfg0, sigOver])
      check_signal_sigOver rfl).2
    resultOver stOverAfter execute_signal_sigOver

/-- A BUY of 40 shares at $0.50 (notional $20) when $24990 of the $25000
daily cap is already used: adding it breaches the cap with a positive $10
remainder. -/
def sigC3 : Signal :=
  { strategy := .ARBITRAGE, token_id := "tok3", condition_id := "cond3",
    side := .BUY, price := 1/2, size := 40, order_type := .GTC }

/-- C3: evaluation at the failing input.  The trade breaches the daily cap
with a positive remainder, so the documented behaviour ("downsize to fit")
calls for an adjusted size of `remaining / price = 20`; but the verdict the
code returns is ALLOWED with the signal's size untouched at 40 — the
downsizing inside `_check_daily_volume` is applied to a local variable and
discarded. -/
theorem daily_volume_downsize_has_no_effect :
    check_signal cfg0 inv0 (.ok (some 24990)) false sigC3
      = .ok ({ allowed := true, adjusted_signal := some sigC3 }, false) ∧
    cfg0.daily_volume_cap_usd < 24990 + sigC3.size * sigC3.price ∧
    0 < cfg0.daily_volume_cap_usd - 24990 ∧
    sigC3.size ≠ (cfg0.daily_volume_cap_usd - 24990) / sigC3.price := by
  refine ⟨?_, by norm_num [cfg0, sigC3], by norm_num [cfg0],
    by norm_num [cfg0, sigC3]⟩
  unfold check_signal check_drawdown check_volume_and_limits
    check_daily_volume check_market_exposure check_portfolio_exposure
  norm_num [cfg0, inv0, sigC3, Inventory.portfolio_value,
    Inventory.get_total_exposure, Inventory.get_market_exposure,
    Inventory.get_open_position_count, BotConfig.drawdown_threshold]

/-- C4 (amended): when the exchange reports status `live` and a zero (or
absent) `fillPrice` / `fillSize`, the live `OrderResult` has
`fill_price = 0` and `fill_size = 0`; the TRADE_EXECUTED event the order
manager publishes for it carries no `is_resting` key at all (the dashboard
consumer's `d.get("is_resting", False)` therefore reads `false`). -/
theorem live_resting_zero_fill_and_no_event_flag (s : Signal) (r : LiveResp)
    (inv : Inventory) (hst : pyLower r.status = "live")
    (hfp : r.fillPrice = 0) (hfs : r.fillSize = 0) :
    (execute_live s (.ok r)).fill_price = 0 ∧
    (execute_live s (.ok r)).fill_size = 0 ∧
    (publish_trade_event inv (execute_live s (.ok r))).lookup "is_resting"
      = none := by
  have hres : execute_live s (.ok r) =
      { signal := s, success := true, order_id := pyOrStr r.orderID r.id,
        fill_price := 0, fill_size := 0, fee_paid := r.fee,
        is_dry_run := false } := by
    unfold execute_live
    simp [hst, hfp, hfs]
  rw [hres]
  refine ⟨rfl, rfl, ?_⟩
  simp [publish_trade_event, List.lookup]

/-- The `sigC4` GTC BUY submitted live in the C4 scenarios. -/
def sigC4 : Signal :=
  { strategy := .LIQUIDITY, token_id := "tok4", condition_id := "cond4",
    side := .BUY, price := 13/25, size := 50, order_type := .GTC }

/-- A `live`-status exchange response that nevertheless reports a partial
fill (`fillPrice = 0.3`, `fillSize = 2`). -/
def respC4 : LiveResp :=
  { status := "live", fillPrice := 3/10, fillSize := 2, fee := 0,
    orderID := some "ord-1" }

/-- C4 counterexample to the claim as stated: on a `live` response carrying
a nonzero reported fill, the `OrderResult` keeps `fill_price = 0.3 ≠ 0`;
and (for any result) the published TRADE_EXECUTED event has no
`is_resting` key, so nothing marks it `is_resting = true`. -/
theorem live_resting_claim_fails :
    (execute_live sigC4 (.ok respC4)).fill_price = 3/10 ∧
    ((3:ℚ)/10 ≠ 0) ∧
    (publish_trade_event inv0 (execute_live sigC4 (.ok respC4))).lookup
      "is_resting" = none := by
  have hres : execute_live sigC4 (.ok respC4) =
      { signal := sigC4, success := true, order_id := some "ord-1",
        fill_price := 3/10, fill_size := 2, fee_paid := 0,
        is_dry_run := false } := by
    unfold execute_live pyLower pyOrStr
    norm_num [respC4]
    exact fun h => absurd h (by decide)
  rw [hres]
  refine ⟨rfl, by norm_num, ?_⟩
  simp [publish_trade_event, List.lookup]

/-- Concrete instance of the amended C4 theorem at a bare `live` response. -/
theorem live_resting_zero_fill_witness :
    (execute_live sig0 (.ok { status := "live" })).fill_price = 0 ∧
    (execute_live sig0 (.ok { status := "live" })).fill_size = 0 ∧
    (publish_trade_event inv0
        (execute_live sig0 (.ok { status := "live" }))).lookup "is_resting"
      = none :=
  live_resting_zero_fill_and_no_event_flag sig0 { status := "live" } inv0
    (by decide) rfl rfl

/-- C5: for an active two-outcome market whose best asks satisfy
`yes_ask + no_ask ≤ 1 − arb_min_profit_cents/100`, the scan emits exactly
the two FOK BUY signals sized `max_trade · (1 − other_side_ask)`, and for
any asks in `[0, 1]` the combined outlay of that pair is at most
`max_trade_size_usd`. -/
theorem arb_scan_emits_capped_pair (cfg : BotConfig)
    (getBook : String → Except String OrderBook) (market : Market)
    (yesTok noTok : TokenInfo) (yb nb : OrderBook) (ya na : ℚ)
    (hact : market.active = true) (htoks : market.tokens = [yesTok, noTok])
    (hyes : yesTok.outcome = "Yes") (hno : noTok.outcome = "No")
    (hgy : getBook yesTok.token_id = .ok yb)
    (hgn : getBook noTok.token_id = .ok nb)
    (hya : yb.best_ask = some ya) (hna : nb.best_ask = some na)
    (h0y : 0 ≤ ya) (h1y : ya ≤ 1) (h0n : 0 ≤ na) (h1n : na ≤ 1)
    (hm : 0 ≤ cfg.max_trade_size_usd)
    (hprofit : ya + na ≤ 1 - cfg.arb_min_profit_cents / 100) :
    arb_scan_market cfg getBook market =
      [{ strategy := .ARBITRAGE, token_id := yesTok.token_id,
         condition_id := market.condition_id, side := .BUY, price := ya,
         size := cfg.max_trade_size_usd * (1 - na), order_type := .FOK,
         edge := some (1 - (ya + na)),
         market_question := some market.question },
       { strategy := .ARBITRAGE, token_id := noTok.token_id,
         condition_id := market.condition_id, side := .BUY, price := na,
         size := cfg.max_trade_size_usd * (1 - ya), order_type := .FOK,
         edge := some (1 - (ya + na)),
         market_question := some market.question }] ∧
    ya * (cfg.max_trade_size_usd * (1 - na))
      + na * (cfg.max_trade_size_usd * (1 - ya)) ≤ cfg.max_trade_size_usd := by
  constructor
  · have hfindYes : List.find? (fun t => t.outcome = "Yes") [yesTok, noTok]
        = some yesTok := by
      simp [List.find?, hyes]
    have hfindNo : List.find? (fun t => t.outcome = "No") [yesTok, noTok]
        = some noTok := by
      simp [List.find?, hyes, hno]
    have hnlt : ¬(1 - (ya + na) < cfg.arb_min_profit_cents / 100) := by
      push_neg
      linarith
    unfold arb_scan_market
    simp only [hfindYes, hfindNo, hgy, hgn, hya, hna, hact, htoks,
      List.length_cons, List.length_nil]
    norm_num
    exact fun h => absurd h hnlt
  · have hfac : ya * (1 - na) + na * (1 - ya) ≤ 1 := by nlinarith
    calc ya * (cfg.max_trade_size_usd * (1 - na))
          + na * (cfg.max_trade_size_usd * (1 - ya))
        = cfg.max_trade_size_usd * (ya * (1 - na) + na * (1 - ya)) := by ring
      _ ≤ cfg.max_trade_size_usd * 1 := mul_le_mul_of_nonneg_left hfac hm
      _ = cfg.max_trade_size_usd := mul_one _

/-- Configuration for the arbitrage example: `$10` per-trade cap, 0.5¢
minimum profit. -/
def cfgArb : BotConfig := { cfg0 with max_trade_size_usd := 10 }

/-- The two-outcome market of the arbitrage example. -/
def marketArb : Market :=
  { condition_id := "condA", question := "arb?",
    tokens := [{ token_id := "tyA", outcome := "Yes", price := 9/20 },
               { token_id := "tnA", outcome := "No", price := 13/25 }],
    active := true }

/-- Book fetch for the example: YES best ask `0.45`, NO best ask `0.52`. -/
def getBookArb (token_id : String) : Except String OrderBook :=
  if token_id = "tyA" then .ok { bids := [], asks := [9/20] }
  else .ok { bids := [], asks := [13/25] }

/-- Concrete instance of the C5 theorem: asks `0.45 + 0.52 = 0.97 ≤ 0.995`
give exactly two FOK BUYs sized `10·(1−0.52) = 4.8` and `10·(1−0.45) = 5.5`
with outlay at most `$10`. -/
theorem arb_scan_emits_capped_pair_witness :
    arb_scan_market cfgArb getBookArb marketArb =
      [{ strategy := .ARBITRAGE, token_id := "tyA",
         condition_id := marketArb.condition_id, side := .BUY, price := 9/20,
         size := cfgArb.max_trade_size_usd * (1 - 13/25),
         order_type := .FOK, edge := some (1 - (9/20 + 13/25)),
         market_question := some marketArb.question },
       { strategy := .ARBITRAGE, token_id := "tnA",
         condition_id := marketArb.condition_id, side := .BUY, price := 13/25,
         size := cfgArb.max_trade_size_usd * (1 - 9/20),
         order_type := .FOK, edge := some (1 - (9/20 + 13/25)),
         market_question := some marketArb.question }] ∧
    9/20 * (cfgArb.max_trade_size_usd * (1 - 13/25))
      + 13/25 * (cfgArb.max_trade_size_usd * (1 - 9/20))
      ≤ cfgArb.max_trade_size_usd ∧
    cfgArb.max_trade_size_usd * (1 - 13/25) = 24/5 ∧
    cfgArb.max_trade_size_usd * (1 - 9/20) = 11/2 := by
  have h := arb_scan_emits_capped_pair cfgArb getBookArb marketArb
    { token_id := "tyA", outcome := "Yes", price := 9/20 }
    { token_id := "tnA", outcome := "No", price := 13/25 }
    { bids := [], asks := [9/20] } { bids := [], asks := [13/25] }
    (9/20) (13/25) rfl rfl rfl rfl
    (by unfold getBookArb; norm_num)
    (by unfold getBookArb; simp)
    rfl rfl (by norm_num) (by norm_num) (by norm_num) (by norm_num)
    (by norm_num [cfgArb, cfg0]) (by norm_num [cfgArb, cfg0])
  exact ⟨h.1, h.2, by norm_num [cfgArb, cfg0], by norm_num [cfgArb, cfg0]⟩

/-- C6: in RESTING_EXIT, when the poll sees the exit order filled (and the
stop-loss row does not fire first, and an exit order id is on record), the
cycle completes with `profit = min(entry_shares, exit_shares) −
entry_price·entry_shares − exit_price·exit_shares` and status `completed`,
and the machine resets to IDLE with no current cycle. -/
theorem flip_exit_fill_completes (cfg : BotConfig) (st : FlipState)
    (current_price : ℚ) (c : FlipCycleState)
    (hph : st.phase = FlipPhase.RESTING_EXIT)
    (hcy : st.cycle = some c)
    (hsl : ¬(0 < current_price ∧ 0 < c.entry_price ∧
        cfg.lp_flip_stop_loss_pct ≤
          (c.entry_price - current_price) / c.entry_price))
    (hoid : c.exit_order_id ≠ "") :
    do_resting_exit cfg st current_price true =
      (complete_cycle st c
        (min c.entry_shares c.exit_shares - c.entry_price * c.entry_shares
          - c.exit_price * c.exit_shares) "completed",
       some (min c.entry_shares c.exit_shares - c.entry_price * c.entry_shares
          - c.exit_price * c.exit_shares, "completed")) ∧
    (do_resting_exit cfg st current_price true).1.phase = FlipPhase.IDLE ∧
    (do_resting_exit cfg st current_price true).1.cycle = none := by
  have hmain : do_resting_exit cfg st current_price true =
      (complete_cycle st c
        (min c.entry_shares c.exit_shares - c.entry_price * c.entry_shares
          - c.exit_price * c.exit_shares) "completed",
       some (min c.entry_shares c.exit_shares - c.entry_price * c.entry_shares
          - c.exit_price * c.exit_shares, "completed")) := by
    unfold do_resting_exit
    rw [hcy]
    simp only [if_neg hsl, if_neg hoid]
    simp
  refine ⟨hmain, ?_, ?_⟩ <;> rw [hmain] <;> simp [complete_cycle]

/-- The completed flip cycle of the spec's example: entry 50 shares at
`$0.48`, exit 50 shares at `$0.46`. -/
def cycF : FlipCycleState :=
  { condition_id := "condF", market_question := "flip?",
    entry_side := "yes", entry_token_id := "tyF", entry_price := 12/25,
    entry_shares := 50, entry_order_id := "o1",
    exit_side := "no", exit_token_id := "tnF", exit_price := 23/50,
    exit_shares := 50, exit_order_id := "o2", db_id := 7 }

/-- Flip machine state resting in the exit leg of `cycF`. -/
def stFlip : FlipState :=
  { phase := .RESTING_EXIT, cycle := some cycF, total_profit := 0,
    total_flips := 0, recent_flips := [] }

/-- Concrete instance of the C6 theorem: at a current price of `$0.47` the
stop-loss does not fire and the filled exit completes the cycle with
`profit = min(50,50) − 0.48·50 − 0.46·50 = 3.0`. -/
theorem flip_exit_fill_completes_witness :
    do_resting_exit cfg0 stFlip (47/100) true =
      (complete_cycle stFlip cycF
        (min cycF.entry_shares cycF.exit_shares
          - cycF.entry_price * cycF.entry_shares
          - cycF.exit_price * cycF.exit_shares) "completed",
       some (min cycF.entry_shares cycF.exit_shares
          - cycF.entry_price * cycF.entry_shares
          - cycF.exit_price * cycF.exit_shares, "completed")) ∧
    (do_resting_exit cfg0 stFlip (47/100) true).1.phase = FlipPhase.IDLE ∧
    (do_resting_exit cfg0 stFlip (47/100) true).1.cycle = none ∧
    (do_resting_exit cfg0 stFlip (47/100) true).2 = some (3, "completed") := by
  have h := flip_exit_fill_completes cfg0 stFlip (47/100) cycF rfl rfl
    (by norm_num [cfg0, cycF]) (by simp [cycF])
  refine ⟨h.1, h.2.1, h.2.2, ?_⟩
  rw [h.1]
  norm_num [cycF]

/-- When the exchange rejects every attempt, the FOK step-down loop runs to
exhaustion and reports failure with exit price `0.0`, from any starting
price and attempt count. -/
theorem sell_loop_reject_outcome (attempt : ℕ) (p : ℚ) :
    (sell_loop (fun _ => false) attempt p).2 = (false, 0) := by
  rw [sell_loop]
  split
  · next h =>
    simp only [Bool.false_eq_true, if_false]
    exact sell_loop_reject_outcome (attempt + 1) (round_to_tick (p - 1/100))
  · rfl
termination_by (⌈p * 100⌉).toNat
decreasing_by exact sell_step_measure_lt p (by assumption)

/-- Stepping down from an exact price of `k` cents under total rejection
attempts exactly the prices `k, k−1, …, 1` cents, one tick apart. -/
theorem sell_loop_reject_prices (k : ℕ) :
    ∀ attempt, (sell_loop (fun _ => false) attempt ((k : ℚ) / 100)).1 =
      (List.range k).map (fun i => ((k - i : ℕ) : ℚ) / 100) := by
  induction k with
  | zero =>
    intro attempt
    rw [sell_loop, dif_neg (by norm_num)]
    simp
  | succ n ih =>
    intro attempt
    have hge : (1:ℚ)/100 ≤ ((n + 1 : ℕ) : ℚ) / 100 := by
      have : (1:ℚ) ≤ ((n + 1 : ℕ) : ℚ) := by
        push_cast
        linarith [Nat.cast_nonneg (α := ℚ) n]
      linarith
    have hstep : round_to_tick (((n + 1 : ℕ) : ℚ) / 100 - 1/100)
        = ((n : ℕ) : ℚ) / 100 := by
      have harg : (((n + 1 : ℕ) : ℚ) / 100 - 1/100) * 100 = ((n : ℤ) : ℚ) := by
        push_cast
        ring
      rw [round_to_tick_cents, harg, pythonRound_intCast]
      push_cast
      ring
    rw [sell_loop, dif_pos hge]
    simp only [Bool.false_eq_true, if_false, hstep, ih]
    rw [List.range_succ_eq_map]
    simp only [List.map_cons, List.map_map, Nat.sub_zero]
    congr 1
    apply List.map_congr_left
    intro i _
    simp [Nat.succ_sub_succ]

/-- C7 (amended): the exit-sell posts its first FOK SELL at
`max(0.01, round_to_tick(best_bid))` when the book has a positive bid (the
source clamps the start up to one cent; the fallback price is clamped the
same way), decrements the price by exactly one tick per rejected attempt,
and terminates for every starting price — under total rejection it returns
`(False, 0.0)` so the caller keeps the position tracked; from a start of
`k` cents it attempts exactly `k, k−1, …, 1` cents, and in particular a
rejected attempt at `0.01` drives the next price to `0 < 0.01` and the
loop exits after that single attempt. -/
theorem sell_loop_steps_one_tick_and_terminates :
    (∀ bb price : ℚ, 0 < bb →
        sell_start_price (some bb) price = max (1/100) (round_to_tick bb)) ∧
    (∀ (best_bid : Option ℚ) (price : ℚ),
        (sell_position_loop best_bid price (fun _ => false)).2 = (false, 0)) ∧
    (∀ (attempt k : ℕ),
        (sell_loop (fun _ => false) attempt ((k : ℚ) / 100)).1 =
          (List.range k).map fun i => ((k - i : ℕ) : ℚ) / 100) ∧
    sell_loop (fun _ => false) 0 (1/100) = ([1/100], false, 0) ∧
    round_to_tick (1/100 - 1/100) < 1/100 := by
  have hrt0 : round_to_tick ((1:ℚ)/100 - 1/100) = 0 := by
    have harg : (((1:ℚ)/100 - 1/100)) * 100 = ((0:ℤ) : ℚ) := by norm_num
    rw [round_to_tick_cents, harg, pythonRound_intCast]
    norm_num
  refine ⟨?_, ?_, fun attempt k => sell_loop_reject_prices k attempt, ?_, ?_⟩
  · intro bb price hbb
    simp only [sell_start_price]
    rw [if_pos ⟨ne_of_gt hbb, hbb⟩]
  · intro best_bid price
    exact sell_loop_reject_outcome 0 _
  · have h1 := sell_loop_reject_prices 1 0
    have h2 := sell_loop_reject_outcome 0 ((1:ℚ)/100)
    norm_num [List.range_succ] at h1
    have hsplit : sell_loop (fun _ => false) 0 ((1:ℚ)/100)
        = ((sell_loop (fun _ => false) 0 ((1:ℚ)/100)).1,
           (sell_loop (fun _ => false) 0 ((1:ℚ)/100)).2) := rfl
    rw [hsplit, h1, h2]
  · rw [hrt0]
    norm_num

/-- C7 counterexample to the claim as stated: with a positive best bid of
`0.004`, `round_to_tick` gives `0.0`, but the loop's starting price is the
clamped `max(0.01, 0.0) = 0.01`, not `round_to_tick(best_bid)`. -/
theorem sell_start_price_clamps_low_bid :
    sell_start_price (some (1/250)) (1/2) = 1/100 ∧
    round_to_tick (1/250) = 0 ∧
    sell_start_price (some (1/250)) (1/2) ≠ round_to_tick (1/250) := by
  have hrt : round_to_tick ((1:ℚ)/250) = 0 := by
    have harg : ((1:ℚ)/250) * 100 = 2/5 := by norm_num
    have hpr : pythonRound (2/5) = 0 := by
      have hfl : ⌊(2:ℚ)/5⌋ = 0 := by
        rw [Int.floor_eq_iff]
        norm_num
      unfold pythonRound
      rw [hfl]
      norm_num
    rw [round_to_tick_cents, harg, hpr]
    norm_num
  have hsp : sell_start_price (some ((1:ℚ)/250)) (1/2) = 1/100 := by
    simp only [sell_start_price]
    rw [if_pos ⟨by norm_num, by norm_num⟩, hrt]
    norm_num
  exact ⟨hsp, hrt, by rw [hsp, hrt]; norm_num⟩

/-- Concrete instance of the amended C7 theorem: a book with best bid
`$0.52` starts the loop at `max(0.01, round_to_tick(0.52))`, total
rejection from one cent fails after exactly one attempt, and the attempted
price ladder from 3 cents is `[0.03, 0.02, 0.01]`. -/
theorem sell_loop_steps_one_tick_witness :
    sell_start_price (some (13/25)) (1/2)
      = max (1/100) (round_to_tick (13/25)) ∧
    (sell_position_loop (some (13/25)) (1/2) (fun _ => false)).2
      = (false, 0) ∧
    (sell_loop (fun _ => false) 0 ((3 : ℚ) / 100)).1 =
      (List.range 3).map (fun i => ((3 - i : ℕ) : ℚ) / 100) ∧
    sell_loop (fun _ => false) 0 (1/100) = ([1/100], false, 0) :=
  ⟨sell_loop_steps_one_tick_and_terminates.1 (13/25) (1/2) (by norm_num),
   sell_loop_steps_one_tick_and_terminates.2.1 (some (13/25)) (1/2),
   by
     have h := sell_loop_steps_one_tick_and_terminates.2.2.1 0 3
     norm_num at h ⊢
     exact h,
   sell_loop_steps_one_tick_and_terminates.2.2.2.1⟩

/-- Concatenating the batch slices of `execute_batch` recovers the input
list. -/
theorem toBatches_flatten (l : List Signal) : (toBatches l).flatten = l := by
  cases l with
  | nil => simp [toBatches]
  | cons x xs =>
    rw [toBatches]
    simp only [List.flatten_cons]
    rw [toBatches_flatten ((x :: xs).drop MAX_BATCH_ORDERS)]
    exact List.take_append_drop _ _
termination_by l.length
decreasing_by
  simp only [List.length_drop, List.length_cons, MAX_BATCH_ORDERS]
  omega

/-- Serial execution splits over list concatenation. -/
theorem runSignals_append (cfg : BotConfig) (env : ExecEnv) (l₁ : List Signal) :
    ∀ (l₂ : List Signal) (n : ℕ) (st : EngineState),
    runSignals cfg env n st (l₁ ++ l₂) =
      match runSignals cfg env n st l₁ with
      | .error e => .error e
      | .ok (rs, st1, n1) =>
        match runSignals cfg env n1 st1 l₂ with
        | .error e => .error e
        | .ok (rs2, st2, n2) => .ok (rs ++ rs2, st2, n2) := by
  induction l₁ with
  | nil =>
    intro l₂ n st
    simp only [List.nil_append, runSignals]
    cases hx : runSignals cfg env n st l₂ with
    | error e => rfl
    | ok t =>
      obtain ⟨rs2, st2, n2⟩ := t
      simp
  | cons s rest ih =>
    intro l₂ n st
    simp only [List.cons_append, runSignals]
    cases hx : execute_signal cfg (env.vol n) (env.u n) (env.live n) st s with
    | error e => rfl
    | ok t =>
      obtain ⟨r, st1⟩ := t
      simp only [List.append_eq]
      rw [ih]
      cases hy : runSignals cfg env (n + 1) st1 rest with
      | error e => simp
      | ok t2 =>
        obtain ⟨rs1, st2, n2⟩ := t2
        cases hz : runSignals cfg env n2 st2 l₂ with
        | error e => simp [hz]
        | ok t3 =>
          obtain ⟨rs3, st3, n3⟩ := t3
          simp [hz]

/-- The chunked outer loop of `execute_batch` is serial execution of the
flattened slices. -/
theorem execute_batch_go_eq (cfg : BotConfig) (env : ExecEnv)
    (batches : List (List Signal)) : ∀ (n : ℕ) (st : EngineState),
    execute_batch.go cfg env n st batches =
      runSignals cfg env n st batches.flatten := by
  induction batches with
  | nil => intro n st; rfl
  | cons b bs ih =>
    intro n st
    rw [List.flatten_cons, runSignals_append]
    simp only [execute_batch.go]
    cases hx : runSignals cfg env n st b with
    | error e => rfl
    | ok t =>
      obtain ⟨rs, st1, n1⟩ := t
      simp only [ih]

/-- A successful serial run yields one result per input signal. -/
theorem runSignals_length (cfg : BotConfig) (env : ExecEnv)
    (l : List Signal) : ∀ (n : ℕ) (st : EngineState) rs stf nf,
    runSignals cfg env n st l = .ok (rs, stf, nf) → rs.length = l.length := by
  induction l with
  | nil =>
    intro n st rs stf nf hok
    simp only [runSignals, Except.ok.injEq, Prod.mk.injEq] at hok
    rw [← hok.1]
    rfl
  | cons s rest ih =>
    intro n st rs stf nf hok
    simp only [runSignals] at hok
    split at hok
    · cases hok
    · split at hok
      · cases hok
      · next rs1 stf1 nf1 heq =>
        simp only [Except.ok.injEq, Prod.mk.injEq] at hok
        rw [← hok.1]
        simp [ih _ _ _ _ _ heq]

/-- C8 (amended): `execute_batch` walks the input in `MAX_BATCH_ORDERS`
slices but executes **every** signal of the list in one call — the chunking
does not limit the total — serially and in emission order: it equals plain
serial execution of the whole list, and on success returns exactly one
result per input signal, in the same order. -/
theorem execute_batch_is_serial_execution (cfg : BotConfig) (env : ExecEnv)
    (st : EngineState) (signals : List Signal) :
    execute_batch cfg env st signals =
      (match runSignals cfg env 0 st signals with
       | .error e => .error e
       | .ok (rs, stf, _) => .ok (rs, stf)) ∧
    (∀ rs stf, execute_batch cfg env st signals = .ok (rs, stf) →
      rs.length = signals.length) := by
  have hgo : execute_batch.go cfg env 0 st (toBatches signals)
      = runSignals cfg env 0 st signals := by
    rw [execute_batch_go_eq, toBatches_flatten]
  constructor
  · unfold execute_batch
    rw [hgo]
  · intro rs stf hok
    unfold execute_batch at hok
    rw [hgo] at hok
    split at hok
    · cases hok
    · next rs1 stf1 n1 heq =>
      simp only [Except.ok.injEq, Prod.mk.injEq] at hok
      rw [← hok.1]
      exact runSignals_length cfg env signals 0 st rs1 stf1 n1 heq

/-- A small FOK SELL used to drive concrete batch runs (no tracked
position, so only the balance and the dry-run counter move). -/
def sigSell : Signal :=
  { strategy := .LIQUIDITY, token_id := "tokS", condition_id := "condS",
    side := .SELL, price := 1/2, size := 1, order_type := .FOK }

/-- Environment for the concrete batch runs: daily-volume reads find no
row, the jitter draw is 0, live execution is never reached (dry-run). -/
def envSell : ExecEnv :=
  { vol := fun _ => .ok none, u := fun _ => 0, live := fun _ => .error "unused" }

/-- The dry-run fill `sigSell` receives on the `k`-th executor call. -/
def resSell (k : ℕ) : OrderResult :=
  { signal := sigSell, success := true, order_id := some (dryOrderId (k + 1)),
    fill_price := 1/2, fill_size := 1, fee_paid := 0, is_dry_run := true }

/-- One pipeline step on `sigSell` from a positionless state above the
drawdown threshold: the dry executor fills it and the SELL proceeds land on
the balance. -/
theorem sell_step (n k : ℕ) (b : ℚ) (hb : 250 < b) :
    execute_signal cfg0 (.ok none) 0 (.error "unused")
      { inventory := { balance := b, positions := [] }, halted := false,
        dry_counter := k } sigSell
      = .ok (resSell k,
             { inventory := { balance := b + 1/2, positions := [] },
               halted := false, dry_counter := k + 1 }) := by
  have hnd : ¬(b + 0 ≤ (250:ℚ)) := by linarith
  have hnd' : ¬(b ≤ (250:ℚ)) := by linarith
  unfold execute_signal check_signal check_drawdown check_volume_and_limits
    check_daily_volume check_market_exposure check_portfolio_exposure
    jitter_size Inventory.update_on_fill posLookup Inventory.portfolio_value
    Inventory.get_total_exposure Inventory.get_market_exposure
    Inventory.get_open_position_count
  norm_num [cfg0, sigSell, resSell, BotConfig.drawdown_threshold, hnd, hnd']
  exact fun hc => absurd hc (by decide)

/-- Serial execution of `m` copies of `sigSell` succeeds, producing one
result per signal and bumping the dry counter `m` times. -/
theorem runSellSignals (m : ℕ) : ∀ (n k : ℕ) (b : ℚ), 250 < b →
    ∃ rs stf,
      runSignals cfg0 envSell n
        { inventory := { balance := b, positions := [] }, halted := false,
          dry_counter := k } (List.replicate m sigSell)
        = .ok (rs, stf, n + m) ∧
      rs.length = m ∧ stf.dry_counter = k + m := by
  induction m with
  | zero =>
    intro n k b hb
    exact ⟨[],
      { inventory := { balance := b, positions := [] }, halted := false,
        dry_counter := k },
      by simp [runSignals], rfl, rfl⟩
  | succ m ih =>
    intro n k b hb
    obtain ⟨rs, stf, hrun, hlen, hdc⟩ := ih (n + 1) (k + 1) (b + 1/2)
      (by linarith)
    have hmain : runSignals cfg0 envSell n
        { inventory := { balance := b, positions := [] }, halted := false,
          dry_counter := k } (List.replicate (m + 1) sigSell)
        = .ok (resSell k :: rs, stf, n + (m + 1)) := by
      rw [List.replicate_succ]
      simp only [runSignals]
      rw [show envSell.vol n = (.ok none : VolumeFetch) from rfl,
        show envSell.u n = (0:ℚ) from rfl,
        show envSell.live n = (.error "unused" : Except String LiveResp)
          from rfl,
        sell_step n k b hb]
      simp only [hrun]
      rw [show n + 1 + m = n + (m + 1) from by omega]
    exact ⟨resSell k :: rs, stf, hmain, by simp [hlen], by rw [hdc]; omega⟩

/-- The 16-signal batch input. -/
def sigs16 : List Signal := List.replicate 16 sigSell

/-- C8 counterexample to the claim as stated: a single `execute_batch` call
on 16 signals executes (submits to the executor) all 16 — the result list
has 16 entries and the dry-run executor's counter reaches 16 — although
`MAX_BATCH_ORDERS = 15`. -/
theorem execute_batch_sixteen_in_one_call :
    (execute_batch cfg0 envSell st0 sigs16).toOption.map
      (fun p => (p.1.length, p.2.dry_counter)) = some (16, 16) ∧
    ¬(16 ≤ MAX_BATCH_ORDERS) := by
  obtain ⟨rs, stf, hrun, hlen, hdc⟩ := runSellSignals 16 0 0 500 (by norm_num)
  have hst : st0 =
      { inventory := { balance := 500, positions := [] },
        halted := false, dry_counter := 0 } := rfl
  have hgo : execute_batch cfg0 envSell st0 sigs16 = .ok (rs, stf) := by
    unfold execute_batch
    rw [execute_batch_go_eq, toBatches_flatten, hst]
    rw [show sigs16 = List.replicate 16 sigSell from rfl, hrun]
  rw [hgo]
  refine ⟨?_, by norm_num [MAX_BATCH_ORDERS]⟩
  simp [Except.toOption, hlen, hdc]

/-- Concrete instance of the amended C8 theorem on a two-signal batch: the
call equals plain serial execution and returns one result per signal. -/
theorem execute_batch_is_serial_witness :
    execute_batch cfg0 envSell st0 (List.replicate 2 sigSell) =
      (match runSignals cfg0 envSell 0 st0 (List.replicate 2 sigSell) with
       | .error e => .error e
       | .ok (rs, stf, _) => .ok (rs, stf)) ∧
    (execute_batch cfg0 envSell st0 (List.replicate 2 sigSell)).toOption.map
      (fun p => p.1.length) = some 2 := by
  have h := execute_batch_is_serial_execution cfg0 envSell st0
    (List.replicate 2 sigSell)
  obtain ⟨rs, stf, hrun, hlen, hdc⟩ := runSellSignals 2 0 0 500 (by norm_num)
  have hst : st0 =
      { inventory := { balance := 500, positions := [] },
        halted := false, dry_counter := 0 } := rfl
  have hok : execute_batch cfg0 envSell st0 (List.replicate 2 sigSell)
      = .ok (rs, stf) := by
    rw [h.1, hst, hrun]
  refine ⟨h.1, ?_⟩
  rw [hok]
  simp [Except.toOption, h.2 rs stf hok]

/-- Writing a position and reading it back through the dict model. -/
theorem posLookup_posSet (ps : List (String × Position)) (tid : String)
    (p : Position) : posLookup (posSet ps tid p) tid = some p := by
  induction ps with
  | nil => simp [posSet, posLookup]
  | cons kv rest ih =>
    obtain ⟨k, q⟩ := kv
    by_cases h : k = tid
    · simp [posSet, posLookup, h]
    · simp [posSet, posLookup, h, ih]

/-- C10 (amended): `update_on_fill` substitutes the signal's price for a
zero `fill_price` and the signal's size for a zero `fill_size`
componentwise; in particular for a successful BUY whose `fill_price` and
`fill_size` are **both** zero (a resting live GTC), the cash balance is
debited by `signal.price · signal.size + fee` and the position is created
at `signal.size` shares @ `signal.price`, or weighted-merged with exactly
those values — as if the resting order had filled completely. -/
theorem update_on_fill_resting_buy_substitutes (inv : Inventory)
    (r : OrderResult) (hs : r.success = true)
    (hside : r.signal.side = Side.BUY)
    (hfp : r.fill_price = 0) (hfs : r.fill_size = 0) :
    (inv.update_on_fill r).balance
      = inv.balance - (r.signal.price * r.signal.size + r.fee_paid) ∧
    posLookup (inv.update_on_fill r).positions r.signal.token_id =
      some (match posLookup inv.positions r.signal.token_id with
        | none =>
            { condition_id := r.signal.condition_id,
              token_id := r.signal.token_id, outcome := "",
              size := r.signal.size, avg_entry_price := r.signal.price,
              strategy := r.signal.strategy,
              current_price := r.signal.price }
        | some existing =>
            { existing with
              size := existing.size + r.signal.size,
              avg_entry_price := (existing.avg_entry_price * existing.size
                + r.signal.price * r.signal.size)
                / (existing.size + r.signal.size) }) := by
  unfold Inventory.update_on_fill
  simp only [hs, hfp, hfs, hside, Bool.true_eq_false, if_false, if_pos,
    if_true, ite_true, ite_false]
  cases hl : posLookup inv.positions r.signal.token_id with
  | none => simp [hl, posLookup_posSet]
  | some existing => simp [hl, posLookup_posSet]

/-- A BUY signal of 10 shares @ `$0.50`. -/
def sigC10 : Signal :=
  { strategy := .LIQUIDITY, token_id := "tokX", condition_id := "condX",
    side := .BUY, price := 1/2, size := 10, order_type := .GTC }

/-- The exchange report of that BUY: `fill_price = 0`, `fill_size = 5`. -/
def resC10 : OrderResult :=
  { signal := sigC10, success := true, order_id := some "oX",
    fill_price := 0, fill_size := 5, fee_paid := 0 }

/-- C10 counterexample to the claim as stated: `resC10` satisfies the
claim's premise ("fill_price or fill_size equals 0"), yet the BUY debits
only `0.5 · 5 = $2.50` — not `signal.price · signal.size = $5` — and the
created position has 5 shares, not `signal.size = 10`: only the zero
component is substituted. -/
theorem update_on_fill_or_premise_fails :
    (resC10.fill_price = 0 ∨ resC10.fill_size = 0) ∧
    (inv0.update_on_fill resC10).balance
      ≠ inv0.balance
        - (resC10.signal.price * resC10.signal.size + resC10.fee_paid) ∧
    (posLookup (inv0.update_on_fill resC10).positions "tokX").map
      (fun p => p.size) ≠ some resC10.signal.size := by
  refine ⟨Or.inl rfl, ?_, ?_⟩ <;>
  · simp only [Inventory.update_on_fill, resC10, sigC10, inv0]
    norm_num [posLookup, posSet]

/-- Concrete instance of the amended C10 theorem: a fully-resting BUY (both
fill fields 0) of 10 shares @ `$0.50` debits `$5` and opens a 10-share
position at `$0.50`. -/
def resC10z : OrderResult :=
  { signal := sigC10, success := true, order_id := some "oZ",
    fill_price := 0, fill_size := 0, fee_paid := 0 }

/-- Concrete instance of the amended C10 theorem applied to `resC10z`. -/
theorem update_on_fill_resting_buy_witness :
    (inv0.update_on_fill resC10z).balance
      = inv0.balance
        - (resC10z.signal.price * resC10z.signal.size + resC10z.fee_paid) ∧
    posLookup (inv0.update_on_fill resC10z).positions
        resC10z.signal.token_id =
      some (match posLookup inv0.positions resC10z.signal.token_id with
        | none =>
            { condition_id := resC10z.signal.condition_id,
              token_id := resC10z.signal.token_id, outcome := "",
              size := resC10z.signal.size,
              avg_entry_price := resC10z.signal.price,
              strategy := resC10z.signal.strategy,
              current_price := resC10z.signal.price }
        | some existing =>
            { existing with
              size := existing.size + resC10z.signal.size,
              avg_entry_price := (existing.avg_entry_price * existing.size
                + resC10z.signal.price * resC10z.signal.size)
                / (existing.size + resC10z.signal.size) }) :=
  update_on_fill_resting_buy_substitutes inv0 resC10z rfl rfl rfl rfl
